import Mathlib

/-!
Verification of the lifecycle orchestration core of the aqm package.

The Go sources are shallowly embedded: a Go function value of type
`func(context.Context) error` is invoked at most once per list position by the
orchestrator, so each one is modelled by the result it returns when invoked
(`Option GoErr`, `none` being a nil error).  `Micro.Run`, the free functions
`Start` and `Shutdown`, and the two server runners are translated statement by
statement; each run produces the list of invocation events it performs, so the
ordering claims become equations between event lists.  A Go slice-index out of
range or nil dereference is modelled by an `Option` result of `none` at the
outer level.
-/

namespace Aqm

/-- Abstract Go `error` values.  `wrap msg e` models `fmt.Errorf(msg+": %w", e)`,
`join` models `errors.Join` of two non-nil errors, `errServerClosed` models
`http.ErrServerClosed` and `deadlineExceeded` models `context.DeadlineExceeded`.
A Go `error` variable (which may be nil) is an `Option GoErr`. -/
inductive GoErr where
  | base (n : Nat)
  | errServerClosed
  | deadlineExceeded
  | wrap (msg : String) (e : GoErr)
  | join (e₁ e₂ : GoErr)
deriving Repr, DecidableEq

/-- `errors.Join` on two possibly-nil errors: nil operands are dropped and the
result is nil only when both are nil. -/
def goJoin : Option GoErr → Option GoErr → Option GoErr
  | none, none => none
  | none, some e => some e
  | some e, none => some e
  | some e₁, some e₂ => some (GoErr.join e₁ e₂)

/-- Which context a lifecycle function is invoked with: the caller's `ctx`
passed to `Run`/`Start`, or a fresh `context.Background()`. -/
inductive Ctx where
  | caller
  | background
deriving Repr, DecidableEq

/-- One observable invocation performed by the orchestrator. -/
inductive Ev where
  | startFn (i : Nat) (c : Ctx)
  | stopFn (i : Nat) (c : Ctx)
  | runnerStart (i : Nat)
  | runnerStop (i : Nat)
  | hook (i : Nat)
deriving Repr, DecidableEq

/-- Snapshot of the `Micro` lists as taken by `Run` under the read lock.  Each
lifecycle function is represented by the result it returns when invoked; a
runner is the pair of its `Start` and `Stop` results. -/
structure Micro where
  startFuncs : List (Option GoErr)
  stopFuncs : List (Option GoErr)
  runners : List (Option GoErr × Option GoErr)
  shutdown : List (Option GoErr)
deriving Repr, DecidableEq

/-- The rollback loop of `Micro.Run` (part_025 lines 70-74):
`for j := i-1; j >= 0; j-- { if stopErr := stopFns[j](context.Background()); ... }`,
folding each failure into the accumulated error with
`errors.Join(err, fmt.Errorf("lifecycle rollback: %w", stopErr))`.  The
accumulator starts from the (non-nil) triggering start error.  An index out of
range (a Go slice-bounds failure) yields `none`. -/
def rollbackLoop (stopFns : List (Option GoErr)) : Nat → GoErr → Option (List Ev × GoErr)
  | 0, acc => some ([], acc)
  | j+1, acc =>
    match stopFns[j]? with
    | none => none
    | some r =>
      let acc' := match r with
        | none => acc
        | some stopErr => GoErr.join acc (GoErr.wrap "lifecycle rollback" stopErr)
      match rollbackLoop stopFns j acc' with
      | none => none
      | some (evs, accF) => some (Ev.stopFn j Ctx.background :: evs, accF)

/-- The startup loop of `Micro.Run` (part_025 lines 67-77): invoke each start
function with the caller's context; on the first failure run the rollback loop
and return `fmt.Errorf("lifecycle start: %w", err)`.  The second component of
the result is `none` when every start succeeded. -/
def startLoop (stopFns : List (Option GoErr)) : List (Option GoErr) → Nat → Option (List Ev × Option GoErr)
  | [], _ => some ([], none)
  | r :: rest, i =>
    match r with
    | none =>
      match startLoop stopFns rest (i+1) with
      | none => none
      | some (evs, res) => some (Ev.startFn i Ctx.caller :: evs, res)
    | some e =>
      match rollbackLoop stopFns i e with
      | none => none
      | some (revs, accF) =>
        some (Ev.startFn i Ctx.caller :: revs, some (GoErr.wrap "lifecycle start" accF))

/-- The runner startup loop of `Micro.Run` (part_025 lines 79-83): start each
runner in order and return `fmt.Errorf("runner start: %w", err)` on the first
failure, performing no rollback. -/
def runnerStartLoop : List (Option GoErr × Option GoErr) → Nat → List Ev × Option GoErr
  | [], _ => ([], none)
  | r :: rest, i =>
    match r.1 with
    | none =>
      let p := runnerStartLoop rest (i+1)
      (Ev.runnerStart i :: p.1, p.2)
    | some e => ([Ev.runnerStart i], some (GoErr.wrap "runner start" e))

/-- A reverse teardown loop of `Micro.Run` (lines 88-92 and 93-97):
`for i := len(xs)-1; i >= 0; i--`, invoking `xs[i]` with the caller's context
and folding each failure into the aggregate with
`errors.Join(aggErr, fmt.Errorf(tag+": %w", err))`.  Called with the list's own
length, so the index is always in range. -/
def teardownLoop (tag : String) (mk : Nat → Ev) (xs : List (Option GoErr)) : Nat → Option GoErr → List Ev × Option GoErr
  | 0, acc => ([], acc)
  | i+1, acc =>
    let r := (xs[i]?).getD none
    let acc' := match r with
      | none => acc
      | some e => goJoin acc (some (GoErr.wrap tag e))
    let p := teardownLoop tag mk xs i acc'
    (mk i :: p.1, p.2)

/-- The forward shutdown-hook loop of `Micro.Run` (lines 98-102). -/
def hookLoop : List (Option GoErr) → Nat → Option GoErr → List Ev × Option GoErr
  | [], _, acc => ([], acc)
  | r :: rest, i, acc =>
    let acc' := match r with
      | none => acc
      | some e => goJoin acc (some (GoErr.wrap "shutdown hook" e))
    let p := hookLoop rest (i+1) acc'
    (Ev.hook i :: p.1, p.2)

/-- `Micro.Run` (part_025 lines 59-104), on the execution where the caller's
context is eventually cancelled (the `<-ctx.Done()` on line 85 returns):
startup walk with rollback, runner startup, then the three teardown loops.
The result is the event trace paired with the returned error; `none` models a
runtime failure (rollback indexing past the stop list). -/
def Micro.Run (m : Micro) : Option (List Ev × Option GoErr) :=
  match startLoop m.stopFuncs m.startFuncs 0 with
  | none => none
  | some (sevs, some e) => some (sevs, some e)
  | some (sevs, none) =>
    match runnerStartLoop m.runners 0 with
    | (revs, some e) => some (sevs ++ revs, some e)
    | (revs, none) =>
      let stopsR := m.runners.map Prod.snd
      let t₁ := teardownLoop "runner stop" Ev.runnerStop stopsR stopsR.length none
      let t₂ := teardownLoop "lifecycle stop" (fun i => Ev.stopFn i Ctx.caller) m.stopFuncs m.stopFuncs.length t₁.2
      let t₃ := hookLoop m.shutdown 0 t₂.2
      some (sevs ++ revs ++ t₁.1 ++ t₂.1 ++ t₃.1, t₃.2)

/-- The rollback loop of the free function `Start` (lifecycle.go lines 80-84):
`for j := i-1; j >= 0; j--` invoking `stops[j](rollbackCtx)` where
`rollbackCtx := context.Background()`; rollback failures are only logged. -/
def startRollback (stops : List (Option GoErr)) : Nat → Option (List Ev)
  | 0 => some []
  | j+1 =>
    match stops[j]? with
    | none => none
    | some _ =>
      match startRollback stops j with
      | none => none
      | some evs => some (Ev.stopFn j Ctx.background :: evs)

/-- The loop body of the free function `Start` (lifecycle.go lines 76-87):
invoke each start with the caller's context; on the first failure run the
rollback walk and return the original error unchanged. -/
def startLoopFree (stops : List (Option GoErr)) : List (Option GoErr) → Nat → Option (List Ev × Option GoErr)
  | [], _ => some ([], none)
  | r :: rest, i =>
    match r with
    | none =>
      match startLoopFree stops rest (i+1) with
      | none => none
      | some (evs, res) => some (Ev.startFn i Ctx.caller :: evs, res)
    | some e =>
      match startRollback stops i with
      | none => none
      | some revs => some (Ev.startFn i Ctx.caller :: revs, some e)

/-- The free function `Start(ctx, logger, starts, stops)` of lifecycle.go
(lines 72-89).  The logger only records messages and does not affect control
flow, so it is not modelled. -/
def Start (starts stops : List (Option GoErr)) : Option (List Ev × Option GoErr) :=
  startLoopFree stops starts 0

/-- A Go context as seen by the lifecycle code: only its cancellation state is
observable here. -/
structure GoCtx where
  cancelled : Bool
deriving Repr, DecidableEq

/-- `context.Background()`: never cancelled. -/
def goBackground : GoCtx := ⟨false⟩

/-- A context derived by `context.WithTimeout(parent, secs)`: it inherits the
parent's cancellation (it is already cancelled when the parent is) and adds a
deadline of `secs` seconds. -/
structure DerivedCtx where
  preCancelled : Bool
  timeoutSecs : Option Nat
deriving Repr, DecidableEq

/-- `context.WithTimeout(parent, secs * time.Second)`. -/
def withTimeout (parent : GoCtx) (secs : Nat) : DerivedCtx :=
  ⟨parent.cancelled, some secs⟩

/-- State of a single-slot buffered error channel as observed by a
non-blocking receive: empty and open (the `default` branch fires), holding a
value (received with `ok = true`), or closed and empty (received as the zero
value with `ok = false`). -/
inductive ChanState where
  | emptyOpen
  | val (e : GoErr)
  | closedEmpty
deriving Repr, DecidableEq

/-- The `httpServerRunner` struct of http.go (lines 118-121).  `server` and
`errCh` are nilable references (`none` models a nil `*http.Server` or nil
channel); `serveLaunched` records whether `Start` has spawned the serve
goroutine. -/
structure httpServerRunner where
  server : Option Nat
  errCh : Option ChanState
  serveLaunched : Bool
deriving Repr, DecidableEq

/-- `newHTTPServerRunner` (http.go lines 123-125): stores the server and a
fresh single-slot channel. -/
def newHTTPServerRunner (srv : Nat) : httpServerRunner :=
  ⟨some srv, some ChanState.emptyOpen, false⟩

/-- `httpServerRunner.Start` (http.go lines 127-135): spawns the serve
goroutine and returns a nil error immediately, for any context. -/
def httpServerRunner.Start (r : httpServerRunner) : httpServerRunner × Option GoErr :=
  ({ r with serveLaunched := true }, none)

/-- The body of the goroutine spawned by `httpServerRunner.Start`, run when
`ListenAndServe` returns `res`: a non-nil error other than
`http.ErrServerClosed` is sent into the single-slot channel, then the channel
is closed (http.go lines 128-133). -/
def httpServeExit (r : httpServerRunner) (res : Option GoErr) : httpServerRunner :=
  { r with errCh := r.errCh.map (fun ch =>
      match res with
      | some e =>
        if e = GoErr.errServerClosed then
          match ch with
          | ChanState.emptyOpen => ChanState.closedEmpty
          | other => other
        else
          match ch with
          | ChanState.emptyOpen => ChanState.val e
          | other => other
      | none =>
        match ch with
        | ChanState.emptyOpen => ChanState.closedEmpty
        | other => other) }

/-- `httpServerRunner.Stop` (http.go lines 137-149): derive a 5-second timeout
context from the caller's context, invoke `r.server.Shutdown(shutdownCtx)`
(whose result, an external effect, is the `shutdownRes` input), then
non-blockingly drain the error channel and join any serve error.  A nil
`server` would make the method call on line 140 fail, modelled as `none`; the
returned pair is the derived context and the error `Stop` returns. -/
def httpServerRunner.Stop (r : httpServerRunner) (ctx : GoCtx) (shutdownRes : Option GoErr) : Option (DerivedCtx × Option GoErr) :=
  match r.server with
  | none => none
  | some _ =>
    let shutdownCtx := withTimeout ctx 5
    let err := shutdownRes
    let err := match r.errCh with
      | some (ChanState.val e) => goJoin err (some e)
      | _ => err
    some (shutdownCtx, err)

/-- The `grpcServerRunner` struct of grpc.go (lines 90-94). -/
structure grpcServerRunner where
  addr : String
  server : Option Nat
  errCh : Option ChanState
  serveLaunched : Bool
deriving Repr, DecidableEq

/-- `newGRPCServerRunner` (grpc.go lines 96-102). -/
def newGRPCServerRunner (addr : String) (srv : Nat) : grpcServerRunner :=
  ⟨addr, some srv, some ChanState.emptyOpen, false⟩

/-- `grpcServerRunner.Start` (grpc.go lines 104-117): `net.Listen` runs
synchronously (its result is the `listenRes` input); a bind failure is
returned immediately as `fmt.Errorf("failed to listen on %s: %w", addr, err)`
and no serve goroutine is spawned; on success the serve goroutine is spawned
and a nil error is returned. -/
def grpcServerRunner.Start (r : grpcServerRunner) (listenRes : Option GoErr) : grpcServerRunner × Option GoErr :=
  match listenRes with
  | some e => (r, some (GoErr.wrap ("failed to listen on " ++ r.addr) e))
  | none => ({ r with serveLaunched := true }, none)

/-- The body of the goroutine spawned by `grpcServerRunner.Start`, run when
`Serve` returns `res` (grpc.go lines 110-115): any non-nil error is sent into
the channel, then the channel is closed. -/
def grpcServeExit (r : grpcServerRunner) (res : Option GoErr) : grpcServerRunner :=
  { r with errCh := r.errCh.map (fun ch =>
      match res with
      | some e =>
        match ch with
        | ChanState.emptyOpen => ChanState.val e
        | other => other
      | none =>
        match ch with
        | ChanState.emptyOpen => ChanState.closedEmpty
        | other => other) }

/-- Which of the three raced outcomes of `grpcServerRunner.Stop` resolves
first: graceful stop completing, the fixed 5-second timer firing, or the
caller's context being cancelled. -/
inductive StopRace where
  | graceful
  | timerFired
  | ctxCancelled
deriving Repr, DecidableEq

/-- `grpcServerRunner.Stop` (grpc.go lines 119-151): race graceful stop
against the 5-second timer and the caller's context; on timer or cancellation
issue a forced `r.server.Stop()` (the `Bool` in the result records whether the
forced stop was issued); afterwards drain the error channel non-blockingly.
The returned error is exactly what the drain produced — the timeout path adds
no error of its own.  A nil `server` makes the stop goroutine's method call
fail, modelled as `none`. -/
def grpcServerRunner.Stop (r : grpcServerRunner) (race : StopRace) : Option (Bool × Option GoErr) :=
  match r.server with
  | none => none
  | some _ =>
    let forced := match race with
      | StopRace.graceful => false
      | StopRace.timerFired => true
      | StopRace.ctxCancelled => true
    let err := match r.errCh with
      | some (ChanState.val e) => some e
      | _ => none
    some (forced, err)

/-- The reverse stop loop of the free function `Shutdown` (lifecycle.go lines
110-115): `for i := len(stops)-1; i >= 0; i--` invoking `stops[i](stopCtx)`
with `stopCtx := context.Background()`; failures are logged (collected) but
never propagated. -/
def shutdownStopLoop (stops : List (Option GoErr)) : Nat → List Ev × List (Nat × GoErr)
  | 0 => ([], [])
  | i+1 =>
    let r := (stops[i]?).getD none
    let p := shutdownStopLoop stops i
    match r with
    | none => (Ev.stopFn i Ctx.background :: p.1, p.2)
    | some e => (Ev.stopFn i Ctx.background :: p.1, (i, e) :: p.2)

/-- Observable outcome of the free function `Shutdown`: the derived context
passed to `srv.Shutdown`, whether that call was made, the stop invocations
performed, and the stop errors that were logged.  `Shutdown` itself returns
nothing, so no error is propagated to the caller. -/
structure ShutdownOutcome where
  shutdownCtx : DerivedCtx
  srvShutdownCalled : Bool
  stopEvents : List Ev
  loggedStopErrs : List (Nat × GoErr)
deriving Repr, DecidableEq

/-- The free function `Shutdown(ctx, srv, logger, stops)` (lifecycle.go lines
91-116): a nil `ctx` is replaced by `context.Background()`; the 5-second
shutdown context is derived from the resulting context with
`context.WithTimeout`; `srv.Shutdown` is invoked when `srv` is non-nil; then
every stop function runs in reverse order with a background context, its
errors only logged. -/
def Shutdown (ctx : Option GoCtx) (srvPresent : Bool) (stops : List (Option GoErr)) : ShutdownOutcome :=
  let c := match ctx with
    | none => goBackground
    | some c => c
  let shutdownCtx := withTimeout c 5
  let p := shutdownStopLoop stops stops.length
  ⟨shutdownCtx, srvPresent, p.1, p.2⟩

/-- Configuration-phase state of `Micro`: the four lists populated by the
registration paths.  Registered Go functions are represented by opaque
identifiers; a nil Go function value is `none`. -/
structure MicroReg where
  startFuncs : List Nat
  stopFuncs : List Nat
  runners : List Nat
  shutdown : List Nat
deriving Repr, DecidableEq

/-- The empty lists of a freshly constructed `Micro` (`NewMicro`,
part_025 lines 42-54). -/
def micro0 : MicroReg := ⟨[], [], [], []⟩

/-- `Micro.addStart` (part_025 lines 147-154): a nil function is ignored,
otherwise it is appended to `startFuncs`. -/
def MicroReg.addStart (m : MicroReg) (fn : Option Nat) : MicroReg :=
  match fn with
  | none => m
  | some f => { m with startFuncs := m.startFuncs ++ [f] }

/-- `Micro.addStop` (part_025 lines 156-163): a nil function is ignored,
otherwise it is appended to `stopFuncs`. -/
def MicroReg.addStop (m : MicroReg) (fn : Option Nat) : MicroReg :=
  match fn with
  | none => m
  | some f => { m with stopFuncs := m.stopFuncs ++ [f] }

/-- A component as seen by the registration paths: `start` is `some` exactly
when the component's dynamic type implements `Startable` (in which case the
method value is never nil), and `stop` likewise for `Stoppable`. -/
structure Component where
  start : Option Nat
  stop : Option Nat
deriving Repr, DecidableEq

/-- The per-component registration body shared by `WithLifecycle`
(option.go lines 102-117) and the module loops of `WithHTTPServer`
(http.go lines 98-103) and `WithGRPCServer` (grpc.go lines 57-62): `addStart`
when the component is `Startable`, `addStop` when it is `Stoppable`. -/
def registerComponent (m : MicroReg) (c : Component) : MicroReg :=
  let m₁ := match c.start with
    | some s => m.addStart (some s)
    | none => m
  match c.stop with
  | some st => m₁.addStop (some st)
  | none => m₁

/-- `WithLifecycle(components...)` (option.go lines 100-117): nil components
are skipped, the rest are registered in order. -/
def WithLifecycle (m : MicroReg) (comps : List (Option Component)) : MicroReg :=
  comps.foldl (fun acc c =>
    match c with
    | none => acc
    | some comp => registerComponent acc comp) m

/-! ### Helper lemmas about the loops -/

lemma goJoin_some_right (a : Option GoErr) (e : GoErr) : goJoin a (some e) ≠ none := by
  cases a <;> simp [goJoin]

lemma range_map_add_one {α : Type} (f : Nat → α) (k : Nat) :
    (List.range (k+1)).map f = f 0 :: (List.range k).map (fun t => f (t+1)) := by
  simp [List.range_succ_eq_map, List.map_map, Function.comp, Nat.succ_eq_add_one]

lemma map_congr_fun {α : Type} {f g : Nat → α} (l : List Nat) (h : ∀ t, f t = g t) :
    l.map f = l.map g := by
  induction l with
  | nil => rfl
  | cons a l ih => simp [h, ih]

lemma range_reverse_succ (i : Nat) :
    (List.range (i+1)).reverse = i :: (List.range i).reverse := by
  simp [List.range_succ]

lemma forall_index_none_iff (xs : List (Option GoErr)) :
    (∀ j, j < xs.length → xs[j]? = some none) ↔ ∀ x ∈ xs, x = none := by
  constructor
  · intro h x hx
    obtain ⟨j, hj, hx'⟩ := List.getElem_of_mem hx
    have := h j hj
    rw [List.getElem?_eq_getElem hj] at this
    rw [← hx']
    exact Option.some.inj this
  · intro h j hj
    rw [List.getElem?_eq_getElem hj]
    exact congrArg some (h _ (List.getElem_mem hj))

lemma rollbackLoop_spec (stops : List (Option GoErr)) :
    ∀ (i : Nat), i ≤ stops.length → ∀ (acc : GoErr), ∃ accF,
      rollbackLoop stops i acc =
        some ((List.range i).reverse.map (fun j => Ev.stopFn j Ctx.background), accF) := by
  intro i
  induction i with
  | zero => exact fun _ acc => ⟨acc, rfl⟩
  | succ i ih =>
    intro h acc
    have hi : i < stops.length := h
    obtain ⟨accF, hrec⟩ := ih (Nat.le_of_lt hi)
      (match stops[i] with
        | none => acc
        | some stopErr => GoErr.join acc (GoErr.wrap "lifecycle rollback" stopErr))
    refine ⟨accF, ?_⟩
    simp only [rollbackLoop, List.getElem?_eq_getElem hi, hrec, range_reverse_succ,
      List.map_cons]

lemma startLoop_fail (stops : List (Option GoErr)) (e : GoErr) (rest : List (Option GoErr)) :
    ∀ (k i₀ : Nat),
      startLoop stops (List.replicate k none ++ some e :: rest) i₀ =
        (rollbackLoop stops (i₀ + k) e).map
          (fun p => ((List.range (k+1)).map (fun t => Ev.startFn (i₀ + t) Ctx.caller) ++ p.1,
                     some (GoErr.wrap "lifecycle start" p.2))) := by
  intro k
  induction k with
  | zero =>
    intro i₀
    simp only [List.replicate, List.nil_append, startLoop, Nat.add_zero]
    cases hrb : rollbackLoop stops i₀ e with
    | none => rfl
    | some p => simp [List.range_succ]
  | succ k ih =>
    intro i₀
    simp only [List.replicate_succ, List.cons_append, List.append_eq, startLoop]
    rw [ih (i₀ + 1), show i₀ + 1 + k = i₀ + (k + 1) from by omega]
    cases hrb : rollbackLoop stops (i₀ + (k + 1)) e with
    | none => rfl
    | some p =>
      simp only [Option.map_some']
      rw [range_map_add_one (fun t => Ev.startFn (i₀ + t) Ctx.caller) (k+1)]
      have hshift : (List.range (k+1)).map (fun t => Ev.startFn (i₀ + (t+1)) Ctx.caller) =
          (List.range (k+1)).map (fun t => Ev.startFn (i₀ + 1 + t) Ctx.caller) :=
        map_congr_fun _ (fun t => by rw [show i₀ + (t+1) = i₀ + 1 + t from by omega])
      simp [hshift]

lemma startLoop_ok (stops : List (Option GoErr)) :
    ∀ (n i₀ : Nat),
      startLoop stops (List.replicate n none) i₀ =
        some ((List.range n).map (fun t => Ev.startFn (i₀ + t) Ctx.caller), none) := by
  intro n
  induction n with
  | zero => intro i₀; rfl
  | succ n ih =>
    intro i₀
    simp only [List.replicate_succ, startLoop]
    rw [ih (i₀ + 1)]
    rw [range_map_add_one (fun t => Ev.startFn (i₀ + t) Ctx.caller) n]
    have hshift : (List.range n).map (fun t => Ev.startFn (i₀ + (t+1)) Ctx.caller) =
        (List.range n).map (fun t => Ev.startFn (i₀ + 1 + t) Ctx.caller) :=
      map_congr_fun _ (fun t => by rw [show i₀ + (t+1) = i₀ + 1 + t from by omega])
    simp [hshift]

lemma startRollback_spec (stops : List (Option GoErr)) :
    ∀ (i : Nat), i ≤ stops.length →
      startRollback stops i =
        some ((List.range i).reverse.map (fun j => Ev.stopFn j Ctx.background)) := by
  intro i
  induction i with
  | zero => exact fun _ => rfl
  | succ i ih =>
    intro h
    have hi : i < stops.length := h
    simp only [startRollback, List.getElem?_eq_getElem hi, ih (Nat.le_of_lt hi),
      range_reverse_succ, List.map_cons]

lemma startLoopFree_fail (stops : List (Option GoErr)) (e : GoErr) (rest : List (Option GoErr)) :
    ∀ (k i₀ : Nat),
      startLoopFree stops (List.replicate k none ++ some e :: rest) i₀ =
        (startRollback stops (i₀ + k)).map
          (fun revs => ((List.range (k+1)).map (fun t => Ev.startFn (i₀ + t) Ctx.caller) ++ revs,
                        some e)) := by
  intro k
  induction k with
  | zero =>
    intro i₀
    simp only [List.replicate, List.nil_append, startLoopFree, Nat.add_zero]
    cases hrb : startRollback stops i₀ with
    | none => rfl
    | some revs => simp [List.range_succ]
  | succ k ih =>
    intro i₀
    simp only [List.replicate_succ, List.cons_append, List.append_eq, startLoopFree]
    rw [ih (i₀ + 1), show i₀ + 1 + k = i₀ + (k + 1) from by omega]
    cases hrb : startRollback stops (i₀ + (k + 1)) with
    | none => rfl
    | some revs =>
      simp only [Option.map_some']
      rw [range_map_add_one (fun t => Ev.startFn (i₀ + t) Ctx.caller) (k+1)]
      have hshift : (List.range (k+1)).map (fun t => Ev.startFn (i₀ + (t+1)) Ctx.caller) =
          (List.range (k+1)).map (fun t => Ev.startFn (i₀ + 1 + t) Ctx.caller) :=
        map_congr_fun _ (fun t => by rw [show i₀ + (t+1) = i₀ + 1 + t from by omega])
      simp [hshift]

lemma runnerStartLoop_ok (rs : List (Option GoErr)) :
    ∀ (i₀ : Nat),
      runnerStartLoop (rs.map (fun s => ((none : Option GoErr), s))) i₀ =
        ((List.range rs.length).map (fun t => Ev.runnerStart (i₀ + t)), none) := by
  induction rs with
  | nil => intro i₀; rfl
  | cons a l ih =>
    intro i₀
    simp only [List.map_cons, runnerStartLoop, List.length_cons]
    rw [ih (i₀ + 1)]
    rw [range_map_add_one (fun t => Ev.runnerStart (i₀ + t)) l.length]
    have hshift : (List.range l.length).map (fun t => Ev.runnerStart (i₀ + (t+1))) =
        (List.range l.length).map (fun t => Ev.runnerStart (i₀ + 1 + t)) :=
      map_congr_fun _ (fun t => by rw [show i₀ + (t+1) = i₀ + 1 + t from by omega])
    simp [hshift, List.length_cons]

lemma runnerStartLoop_fail (pres : List (Option GoErr)) (e : GoErr) (sr : Option GoErr)
    (rest : List (Option GoErr × Option GoErr)) :
    ∀ (i₀ : Nat),
      runnerStartLoop (pres.map (fun s => ((none : Option GoErr), s)) ++ (some e, sr) :: rest) i₀ =
        ((List.range (pres.length + 1)).map (fun t => Ev.runnerStart (i₀ + t)),
         some (GoErr.wrap "runner start" e)) := by
  induction pres with
  | nil =>
    intro i₀
    simp only [List.map_nil, List.nil_append, runnerStartLoop]
    simp [List.range_succ]
  | cons a l ih =>
    intro i₀
    simp only [List.map_cons, List.cons_append, List.append_eq, runnerStartLoop,
      List.length_cons]
    rw [ih (i₀ + 1)]
    rw [range_map_add_one (fun t => Ev.runnerStart (i₀ + t)) (l.length + 1)]
    have hshift : (List.range (l.length + 1)).map (fun t => Ev.runnerStart (i₀ + (t+1))) =
        (List.range (l.length + 1)).map (fun t => Ev.runnerStart (i₀ + 1 + t)) :=
      map_congr_fun _ (fun t => by rw [show i₀ + (t+1) = i₀ + 1 + t from by omega])
    simp [hshift, List.length_cons]

lemma teardownLoop_events (tag : String) (mk : Nat → Ev) (xs : List (Option GoErr)) :
    ∀ (i : Nat) (acc : Option GoErr),
      (teardownLoop tag mk xs i acc).1 = (List.range i).reverse.map mk := by
  intro i
  induction i with
  | zero => intro acc; rfl
  | succ i ih =>
    intro acc
    simp only [teardownLoop, ih, range_reverse_succ, List.map_cons]

lemma teardownLoop_err_none (tag : String) (mk : Nat → Ev) (xs : List (Option GoErr)) :
    ∀ (i : Nat), i ≤ xs.length → ∀ (acc : Option GoErr),
      ((teardownLoop tag mk xs i acc).2 = none ↔
        acc = none ∧ ∀ j, j < i → xs[j]? = some none) := by
  intro i
  induction i with
  | zero =>
    intro _ acc
    simp only [teardownLoop]
    exact ⟨fun h => ⟨h, fun j hj => absurd hj (Nat.not_lt_zero j)⟩, fun h => h.1⟩
  | succ i ih =>
    intro h acc
    have hi : i < xs.length := h
    simp only [teardownLoop, List.getElem?_eq_getElem hi, Option.getD_some]
    cases hr : xs[i] with
    | none =>
      rw [ih (Nat.le_of_lt hi) acc]
      constructor
      · rintro ⟨ha, hall⟩
        refine ⟨ha, fun j hj => ?_⟩
        rcases Nat.lt_succ_iff_lt_or_eq.mp hj with hj' | hj'
        · exact hall j hj'
        · subst hj'; rw [List.getElem?_eq_getElem hi, hr]
      · rintro ⟨ha, hall⟩
        exact ⟨ha, fun j hj => hall j (Nat.lt_succ_of_lt hj)⟩
    | some e =>
      rw [ih (Nat.le_of_lt hi) (goJoin acc (some (GoErr.wrap tag e)))]
      constructor
      · rintro ⟨ha, -⟩
        exact absurd ha (goJoin_some_right acc (GoErr.wrap tag e))
      · rintro ⟨-, hall⟩
        have := hall i (Nat.lt_succ_self i)
        rw [List.getElem?_eq_getElem hi, hr] at this
        exact absurd (Option.some.inj this) (by simp)

lemma hookLoop_events :
    ∀ (xs : List (Option GoErr)) (i₀ : Nat) (acc : Option GoErr),
      (hookLoop xs i₀ acc).1 = (List.range xs.length).map (fun t => Ev.hook (i₀ + t)) := by
  intro xs
  induction xs with
  | nil => intro i₀ acc; rfl
  | cons a l ih =>
    intro i₀ acc
    simp only [hookLoop, List.length_cons]
    rw [ih (i₀ + 1)]
    rw [range_map_add_one (fun t => Ev.hook (i₀ + t)) l.length]
    have hshift : (List.range l.length).map (fun t => Ev.hook (i₀ + (t+1))) =
        (List.range l.length).map (fun t => Ev.hook (i₀ + 1 + t)) :=
      map_congr_fun _ (fun t => by rw [show i₀ + (t+1) = i₀ + 1 + t from by omega])
    simp [hshift]

lemma hookLoop_err_none :
    ∀ (xs : List (Option GoErr)) (i₀ : Nat) (acc : Option GoErr),
      ((hookLoop xs i₀ acc).2 = none ↔ acc = none ∧ ∀ x ∈ xs, x = none) := by
  intro xs
  induction xs with
  | nil =>
    intro i₀ acc
    simp [hookLoop]
  | cons a l ih =>
    intro i₀ acc
    cases ha : a with
    | none =>
      simp only [hookLoop, ha]
      rw [ih (i₀ + 1) acc]
      simp [ha]
    | some e =>
      simp only [hookLoop, ha]
      rw [ih (i₀ + 1) (goJoin acc (some (GoErr.wrap "shutdown hook" e)))]
      constructor
      · rintro ⟨hc, -⟩
        exact absurd hc (goJoin_some_right acc (GoErr.wrap "shutdown hook" e))
      · rintro ⟨-, hall⟩
        have hm := hall (some e) (List.mem_cons_self (some e) l)
        exact absurd hm (by simp)

lemma shutdownStopLoop_spec (stops : List (Option GoErr)) :
    ∀ (i : Nat),
      shutdownStopLoop stops i =
        ((List.range i).reverse.map (fun j => Ev.stopFn j Ctx.background),
         (List.range i).reverse.filterMap
           (fun j => ((stops[j]?).getD none).map (fun e => (j, e)))) := by
  intro i
  induction i with
  | zero => rfl
  | succ i ih =>
    simp only [shutdownStopLoop, ih, range_reverse_succ, List.map_cons, List.filterMap_cons]
    cases hr : (stops[i]?).getD none with
    | none => simp
    | some e => simp

lemma registerComponent_fields (m : MicroReg) (c : Component) :
    (registerComponent m c).startFuncs = m.startFuncs ++ c.start.toList ∧
    (registerComponent m c).stopFuncs = m.stopFuncs ++ c.stop.toList := by
  cases hs : c.start <;> cases ht : c.stop <;>
    simp [registerComponent, MicroReg.addStart, MicroReg.addStop, hs, ht]

lemma withLifecycle_fields (comps : List Component) :
    ∀ (m : MicroReg),
      (WithLifecycle m (comps.map some)).startFuncs =
        m.startFuncs ++ comps.filterMap Component.start ∧
      (WithLifecycle m (comps.map some)).stopFuncs =
        m.stopFuncs ++ comps.filterMap Component.stop := by
  induction comps with
  | nil => intro m; simp [WithLifecycle]
  | cons c cs ih =>
    intro m
    have hstep : WithLifecycle m ((c :: cs).map some) =
        WithLifecycle (registerComponent m c) (cs.map some) := rfl
    obtain ⟨h₁, h₂⟩ := ih (registerComponent m c)
    obtain ⟨g₁, g₂⟩ := registerComponent_fields m c
    rw [hstep]
    constructor
    · rw [h₁, g₁, List.filterMap_cons]
      cases hs : c.start <;> simp [List.append_assoc]
    · rw [h₂, g₂, List.filterMap_cons]
      cases ht : c.stop <;> simp [List.append_assoc]

/-! ### Claim theorems -/

/-- Claim C1: for every list of lifecycle start functions in which the
function at index `k` fails and all earlier ones succeed, `Micro.Run` and the
free function `Start` invoke the start functions `0 … k` in order with the
caller's context and then exactly the stop functions with index `< k`, in
strictly descending index order, exactly once each, each with a fresh
background context; both return a non-nil error, and the trace contains no
runner start and no shutdown hook. -/
theorem run_lifecycle_failure_rollback
    (stops rest hooks : List (Option GoErr)) (runners : List (Option GoErr × Option GoErr))
    (k : Nat) (e : GoErr) (hk : k ≤ stops.length) :
    (∃ errF, Micro.Run ⟨List.replicate k none ++ some e :: rest, stops, runners, hooks⟩ =
        some ((List.range (k+1)).map (fun t => Ev.startFn t Ctx.caller) ++
              (List.range k).reverse.map (fun j => Ev.stopFn j Ctx.background),
              some (GoErr.wrap "lifecycle start" errF))) ∧
    Start (List.replicate k none ++ some e :: rest) stops =
      some ((List.range (k+1)).map (fun t => Ev.startFn t Ctx.caller) ++
            (List.range k).reverse.map (fun j => Ev.stopFn j Ctx.background),
            some e) := by
  have h0 : (List.range (k+1)).map (fun t => Ev.startFn (0 + t) Ctx.caller) =
      (List.range (k+1)).map (fun t => Ev.startFn t Ctx.caller) :=
    map_congr_fun _ (fun t => by rw [Nat.zero_add])
  obtain ⟨accF, hrb⟩ := rollbackLoop_spec stops k hk e
  have hsl : startLoop stops (List.replicate k none ++ some e :: rest) 0 =
      some ((List.range (k+1)).map (fun t => Ev.startFn t Ctx.caller) ++
            (List.range k).reverse.map (fun j => Ev.stopFn j Ctx.background),
            some (GoErr.wrap "lifecycle start" accF)) := by
    rw [startLoop_fail stops e rest k 0, Nat.zero_add, hrb]
    simp [h0]
  constructor
  · exact ⟨accF, by simp only [Micro.Run, hsl]⟩
  · have hsr := startRollback_spec stops k hk
    show startLoopFree stops (List.replicate k none ++ some e :: rest) 0 = _
    rw [startLoopFree_fail stops e rest k 0, Nat.zero_add, hsr]
    simp [h0]

/-- Witness for C1 at `k = 1` with two start functions `[ok, fail]` and one
paired stop function. -/
theorem run_lifecycle_failure_rollback_witness :
    (1 ≤ ([none] : List (Option GoErr)).length) ∧
    ((∃ errF, Micro.Run ⟨List.replicate 1 none ++ some (GoErr.base 9) :: [], [none], [], []⟩ =
        some ((List.range 2).map (fun t => Ev.startFn t Ctx.caller) ++
              (List.range 1).reverse.map (fun j => Ev.stopFn j Ctx.background),
              some (GoErr.wrap "lifecycle start" errF))) ∧
      Start (List.replicate 1 none ++ some (GoErr.base 9) :: []) [none] =
        some ((List.range 2).map (fun t => Ev.startFn t Ctx.caller) ++
              (List.range 1).reverse.map (fun j => Ev.stopFn j Ctx.background),
              some (GoErr.base 9))) :=
  ⟨by decide, run_lifecycle_failure_rollback [none] [] [] [] 1 (GoErr.base 9) (by decide)⟩

/-- Claim C2: when every lifecycle start function and every runner start
succeeds and the context is then cancelled, `Micro.Run` returns after invoking
every runner stop exactly once in reverse registration order, then every
lifecycle stop function exactly once in reverse order, then every shutdown hook
exactly once in forward order — whatever errors those steps return — and the
returned error is nil exactly when every teardown step succeeded. -/
theorem run_cancelled_teardown_exhaustive
    (ns : Nat) (stops hooks rstops : List (Option GoErr)) :
    ∃ errF,
      Micro.Run ⟨List.replicate ns none, stops,
                 rstops.map (fun s => ((none : Option GoErr), s)), hooks⟩ =
        some ((List.range ns).map (fun t => Ev.startFn t Ctx.caller) ++
              (List.range rstops.length).map Ev.runnerStart ++
              (List.range rstops.length).reverse.map Ev.runnerStop ++
              (List.range stops.length).reverse.map (fun i => Ev.stopFn i Ctx.caller) ++
              (List.range hooks.length).map Ev.hook,
              errF) ∧
      (errF = none ↔
        (∀ x ∈ rstops, x = none) ∧ (∀ x ∈ stops, x = none) ∧ (∀ x ∈ hooks, x = none)) := by
  have hsl : startLoop stops (List.replicate ns none) 0 =
      some ((List.range ns).map (fun t => Ev.startFn t Ctx.caller), none) := by
    rw [startLoop_ok stops ns 0]
    have h0 : (List.range ns).map (fun t => Ev.startFn (0 + t) Ctx.caller) =
        (List.range ns).map (fun t => Ev.startFn t Ctx.caller) :=
      map_congr_fun _ (fun t => by rw [Nat.zero_add])
    simp [h0]
  have hrl : runnerStartLoop (rstops.map (fun s => ((none : Option GoErr), s))) 0 =
      ((List.range rstops.length).map Ev.runnerStart, none) := by
    rw [runnerStartLoop_ok rstops 0]
    have h0 : (List.range rstops.length).map (fun t => Ev.runnerStart (0 + t)) =
        (List.range rstops.length).map Ev.runnerStart :=
      map_congr_fun _ (fun t => by rw [Nat.zero_add])
    simp [h0]
  have hsnd : (rstops.map (fun s => ((none : Option GoErr), s))).map Prod.snd = rstops := by
    simp [List.map_map, Function.comp]
  have hlen : (rstops.map (fun s => ((none : Option GoErr), s))).length = rstops.length := by
    simp
  refine ⟨(hookLoop hooks 0
      (teardownLoop "lifecycle stop" (fun i => Ev.stopFn i Ctx.caller) stops stops.length
        (teardownLoop "runner stop" Ev.runnerStop rstops rstops.length none).2).2).2, ?_, ?_⟩
  · simp only [Micro.Run, hsl, hrl, hsnd, hlen]
    rw [teardownLoop_events "runner stop" Ev.runnerStop rstops rstops.length,
      teardownLoop_events "lifecycle stop" (fun i => Ev.stopFn i Ctx.caller) stops stops.length,
      hookLoop_events hooks 0]
    have h0 : (List.range hooks.length).map (fun t => Ev.hook (0 + t)) =
        (List.range hooks.length).map Ev.hook :=
      map_congr_fun _ (fun t => by rw [Nat.zero_add])
    simp [h0]
  · rw [hookLoop_err_none hooks 0,
      teardownLoop_err_none "lifecycle stop" (fun i => Ev.stopFn i Ctx.caller) stops
        stops.length le_rfl,
      teardownLoop_err_none "runner stop" Ev.runnerStop rstops rstops.length le_rfl,
      forall_index_none_iff, forall_index_none_iff]
    tauto

/-- Claim C3: when every lifecycle start function succeeds but the runner at
position `k` fails to start, `Micro.Run` returns the wrapped runner error
immediately: runners `0 … k-1` have had `Start` invoked exactly once each in
order, the failing runner's `Start` was invoked, and no runner stop, no
lifecycle stop function and no shutdown hook appears in the trace. -/
theorem run_runner_failure_fail_fast
    (ns : Nat) (stops hooks pres : List (Option GoErr)) (e : GoErr) (sr : Option GoErr)
    (rest : List (Option GoErr × Option GoErr)) :
    Micro.Run ⟨List.replicate ns none, stops,
               pres.map (fun s => ((none : Option GoErr), s)) ++ (some e, sr) :: rest,
               hooks⟩ =
      some ((List.range ns).map (fun t => Ev.startFn t Ctx.caller) ++
            (List.range (pres.length + 1)).map Ev.runnerStart,
            some (GoErr.wrap "runner start" e)) := by
  have hsl : startLoop stops (List.replicate ns none) 0 =
      some ((List.range ns).map (fun t => Ev.startFn t Ctx.caller), none) := by
    rw [startLoop_ok stops ns 0]
    have h0 : (List.range ns).map (fun t => Ev.startFn (0 + t) Ctx.caller) =
        (List.range ns).map (fun t => Ev.startFn t Ctx.caller) :=
      map_congr_fun _ (fun t => by rw [Nat.zero_add])
    simp [h0]
  have hrl : runnerStartLoop (pres.map (fun s => ((none : Option GoErr), s)) ++
        (some e, sr) :: rest) 0 =
      ((List.range (pres.length + 1)).map Ev.runnerStart, some (GoErr.wrap "runner start" e)) := by
    rw [runnerStartLoop_fail pres e sr rest 0]
    have h0 : (List.range (pres.length + 1)).map (fun t => Ev.runnerStart (0 + t)) =
        (List.range (pres.length + 1)).map Ev.runnerStart :=
      map_congr_fun _ (fun t => by rw [Nat.zero_add])
    simp [h0]
  simp only [Micro.Run, hsl, hrl]

lemma filterMap_isSome_length {α β : Type} (f : α → Option β) :
    ∀ (l : List α), (∀ a ∈ l, (f a).isSome) → (l.filterMap f).length = l.length := by
  intro l
  induction l with
  | nil => intro _; rfl
  | cons a l ih =>
    intro h
    obtain ⟨b, hb⟩ := Option.isSome_iff_exists.mp (h a (List.mem_cons_self a l))
    simp [List.filterMap_cons, hb, ih (fun x hx => h x (List.mem_cons_of_mem a hx))]

lemma filterMap_isSome_getElem? {α β : Type} (f : α → Option β) :
    ∀ (l : List α), (∀ a ∈ l, (f a).isSome) →
      ∀ (i : Nat), (l.filterMap f)[i]? = (l[i]?).bind f := by
  intro l
  induction l with
  | nil => intro _ i; simp
  | cons a l ih =>
    intro h i
    obtain ⟨b, hb⟩ := Option.isSome_iff_exists.mp (h a (List.mem_cons_self a l))
    cases i with
    | zero => simp [List.filterMap_cons, hb]
    | succ i =>
      simp [List.filterMap_cons, hb,
        ih (fun x hx => h x (List.mem_cons_of_mem a hx)) i]

/-- Claim C4 counterexample: registering, after construction, a single
component that implements only `Startable` (as `WithLifecycle` and the module
loops of `WithHTTPServer`/`WithGRPCServer` allow) leaves the start list with
one element and the stop list empty, so the two lists do not have the same
length and a start has been added without a paired stop. -/
theorem withLifecycle_start_only_unpaired :
    (WithLifecycle micro0 [some ⟨some 0, none⟩]).startFuncs.length ≠
    (WithLifecycle micro0 [some ⟨some 0, none⟩]).stopFuncs.length := by decide

/-- Claim C4 (amended): `addStart`/`addStop` grow their lists independently,
so the index-pairing invariant holds only for registration sequences in which
every component supplies both a start and a stop.  For such sequences the two
lists have the same length and the elements at index `i` of both lists come
from the same component. -/
theorem withLifecycle_paired_registration
    (comps : List Component)
    (h : ∀ c ∈ comps, c.start.isSome ∧ c.stop.isSome) :
    ((WithLifecycle micro0 (comps.map some)).startFuncs.length =
      (WithLifecycle micro0 (comps.map some)).stopFuncs.length) ∧
    ∀ i, i < comps.length →
      ∃ c, comps[i]? = some c ∧
        (WithLifecycle micro0 (comps.map some)).startFuncs[i]? = c.start ∧
        (WithLifecycle micro0 (comps.map some)).stopFuncs[i]? = c.stop := by
  obtain ⟨h₁, h₂⟩ := withLifecycle_fields comps micro0
  have hs : ∀ c ∈ comps, (Component.start c).isSome := fun c hc => (h c hc).1
  have ht : ∀ c ∈ comps, (Component.stop c).isSome := fun c hc => (h c hc).2
  have hstart : (WithLifecycle micro0 (comps.map some)).startFuncs =
      comps.filterMap Component.start := by
    rw [h₁]; simp [micro0]
  have hstop : (WithLifecycle micro0 (comps.map some)).stopFuncs =
      comps.filterMap Component.stop := by
    rw [h₂]; simp [micro0]
  constructor
  · rw [hstart, hstop, filterMap_isSome_length _ _ hs, filterMap_isSome_length _ _ ht]
  · intro i hi
    refine ⟨comps[i], List.getElem?_eq_getElem hi, ?_, ?_⟩
    · rw [hstart, filterMap_isSome_getElem? _ _ hs i, List.getElem?_eq_getElem hi,
        Option.some_bind]
    · rw [hstop, filterMap_isSome_getElem? _ _ ht i, List.getElem?_eq_getElem hi,
        Option.some_bind]

/-- Witness for the amended C4 at a single component with both hooks. -/
theorem withLifecycle_paired_registration_witness :
    (∀ c ∈ [Component.mk (some 1) (some 2)], c.start.isSome ∧ c.stop.isSome) ∧
    (((WithLifecycle micro0 ([Component.mk (some 1) (some 2)].map some)).startFuncs.length =
      (WithLifecycle micro0 ([Component.mk (some 1) (some 2)].map some)).stopFuncs.length) ∧
    ∀ i, i < [Component.mk (some 1) (some 2)].length →
      ∃ c, [Component.mk (some 1) (some 2)][i]? = some c ∧
        (WithLifecycle micro0 ([Component.mk (some 1) (some 2)].map some)).startFuncs[i]? =
          c.start ∧
        (WithLifecycle micro0 ([Component.mk (some 1) (some 2)].map some)).stopFuncs[i]? =
          c.stop) :=
  ⟨by decide, withLifecycle_paired_registration [Component.mk (some 1) (some 2)] (by decide)⟩

/-- Claim C5 counterexample: for the gRPC runner with a hung server (the
5-second timer wins the race) and no error in the serve channel, `Stop`
returns — issuing the forced stop — but its returned error is nil,
contradicting the claim that the timeout path returns a non-nil error. -/
theorem grpc_stop_timer_nil_error :
    grpcServerRunner.Stop (newGRPCServerRunner ":50051" 0) StopRace.timerFired =
      some (true, none) := rfl

/-- Claim C5 (amended): when the underlying server never finishes graceful
shutdown, `Stop` still returns once its internal 5-second bound elapses: the
HTTP runner derives a 5-second timeout sub-context and returns the non-nil
deadline error that the bounded graceful shutdown reports, while the gRPC
runner issues a forced stop and returns a nil error — unless the serve loop
had already deposited an error in the channel, which is then returned.  The
non-nil-error guarantee in the timeout path holds only for the HTTP runner. -/
theorem runner_stop_timeout_amended :
    (∀ (srv : Nat) (c : GoCtx),
      httpServerRunner.Stop (newHTTPServerRunner srv) c (some GoErr.deadlineExceeded) =
        some (withTimeout c 5, some GoErr.deadlineExceeded)) ∧
    (∀ (a : String) (srv : Nat),
      grpcServerRunner.Stop (newGRPCServerRunner a srv) StopRace.timerFired =
        some (true, none)) ∧
    (∀ (a : String) (srv : Nat) (e : GoErr),
      grpcServerRunner.Stop
        (grpcServeExit ((grpcServerRunner.Start (newGRPCServerRunner a srv) none).1) (some e))
        StopRace.timerFired =
        some (true, some e)) :=
  ⟨fun _ _ => rfl, fun _ _ => rfl, fun _ _ _ => rfl⟩

/-- Claim C6 counterexample: a pre-cancelled (non-nil) caller context is not
replaced by a background context — the 5-second shutdown context `Shutdown`
derives from it is itself already cancelled, so the server shutdown does not
run under a timeout independent of caller cancellation. -/
theorem shutdown_pre_cancelled_not_substituted :
    (Shutdown (some ⟨true⟩) true []).shutdownCtx ≠ withTimeout goBackground 5 := by decide

/-- Claim C6 (amended): `Shutdown` substitutes a background context only for a
nil `ctx`; for a non-nil `ctx` the 5-second shutdown context is derived from
the caller's context and inherits its cancellation, so a pre-cancelled caller
context cuts the server shutdown short.  Afterwards every stop function is
invoked in reverse order with a background context regardless of individual
stop errors, which are collected for logging; `Shutdown` returns nothing, so
no stop error is ever propagated. -/
theorem shutdown_ctx_and_reverse_stops :
    (∀ (srv : Bool) (stops : List (Option GoErr)),
      (Shutdown none srv stops).shutdownCtx = withTimeout goBackground 5) ∧
    (∀ (c : GoCtx) (srv : Bool) (stops : List (Option GoErr)),
      (Shutdown (some c) srv stops).shutdownCtx = withTimeout c 5) ∧
    (∀ (ctx : Option GoCtx) (srv : Bool) (stops : List (Option GoErr)),
      (Shutdown ctx srv stops).stopEvents =
        (List.range stops.length).reverse.map (fun i => Ev.stopFn i Ctx.background) ∧
      (Shutdown ctx srv stops).loggedStopErrs =
        (List.range stops.length).reverse.filterMap
          (fun j => ((stops[j]?).getD none).map (fun e => (j, e)))) := by
  refine ⟨fun srv stops => rfl, fun c srv stops => rfl, fun ctx srv stops => ?_⟩
  constructor
  · show (shutdownStopLoop stops stops.length).1 = _
    rw [shutdownStopLoop_spec stops stops.length]
  · show (shutdownStopLoop stops stops.length).2 = _
    rw [shutdownStopLoop_spec stops stops.length]

/-- Claim C7: `httpServerRunner.Start` returns a nil error for every runner
state (without waiting for the listener to bind); a bind or serve failure `e`
(other than `http.ErrServerClosed`) lands in the single-slot error channel and
a subsequent `Stop`, which drains the channel non-blockingly, joins it into
its returned error; with an empty channel `Stop` returns only the shutdown
result. -/
theorem http_start_async_error_surfacing :
    (∀ (r : httpServerRunner), (httpServerRunner.Start r).2 = none) ∧
    (∀ (srv : Nat) (c : GoCtx) (sr : Option GoErr),
      httpServerRunner.Stop ((httpServerRunner.Start (newHTTPServerRunner srv)).1) c sr =
        some (withTimeout c 5, sr)) ∧
    (∀ (srv : Nat) (e : GoErr) (c : GoCtx) (sr : Option GoErr),
      e ≠ GoErr.errServerClosed →
      httpServerRunner.Stop
        (httpServeExit ((httpServerRunner.Start (newHTTPServerRunner srv)).1) (some e)) c sr =
        some (withTimeout c 5, goJoin sr (some e))) := by
  refine ⟨fun r => rfl, fun srv c sr => rfl, fun srv e c sr h => ?_⟩
  simp [httpServerRunner.Start, httpServeExit, httpServerRunner.Stop, newHTTPServerRunner, h]

/-- Witness for C7 with the serve error `GoErr.base 1`. -/
theorem http_start_async_error_surfacing_witness :
    (GoErr.base 1 ≠ GoErr.errServerClosed) ∧
    httpServerRunner.Stop
      (httpServeExit ((httpServerRunner.Start (newHTTPServerRunner 0)).1) (some (GoErr.base 1)))
      ⟨false⟩ none =
      some (withTimeout ⟨false⟩ 5, goJoin none (some (GoErr.base 1))) :=
  ⟨by decide, http_start_async_error_surfacing.2.2 0 (GoErr.base 1) ⟨false⟩ none (by decide)⟩

/-- Claim C8: `grpcServerRunner.Start` binds synchronously: a bind failure is
returned immediately, wrapped as `failed to listen on <addr>`, with the runner
state unchanged (in particular no serve loop launched); on a successful bind
`Start` returns nil with the serve loop launched. -/
theorem grpc_start_synchronous_bind :
    (∀ (r : grpcServerRunner) (e : GoErr),
      grpcServerRunner.Start r (some e) =
        (r, some (GoErr.wrap ("failed to listen on " ++ r.addr) e))) ∧
    (∀ (r : grpcServerRunner),
      grpcServerRunner.Start r none = ({ r with serveLaunched := true }, none)) :=
  ⟨fun _ _ => rfl, fun _ => rfl⟩

/-- Claim C9: calling `Stop` on a freshly constructed HTTP or gRPC runner
whose `Start` was never called, or on a gRPC runner whose `Start` failed to
bind, always produces a result (the model's `none`, a nil-dereference
failure, never occurs): the constructors always populate the server and the
channel. -/
theorem runner_stop_without_start_safe :
    (∀ (srv : Nat) (c : GoCtx) (sr : Option GoErr),
      (httpServerRunner.Stop (newHTTPServerRunner srv) c sr).isSome = true) ∧
    (∀ (a : String) (srv : Nat) (race : StopRace),
      (grpcServerRunner.Stop (newGRPCServerRunner a srv) race).isSome = true) ∧
    (∀ (a : String) (srv : Nat) (e : GoErr) (race : StopRace),
      (grpcServerRunner.Stop
        ((grpcServerRunner.Start (newGRPCServerRunner a srv) (some e)).1) race).isSome = true) :=
  ⟨fun _ _ _ => rfl, fun _ _ _ => rfl, fun _ _ _ _ => rfl⟩

/-- Claim C10: `addStart` and `addStop` silently ignore a nil function,
leaving the whole `Micro` state unchanged; consequently a nil start paired
with a non-nil stop stores no placeholder, and a later paired registration
lands at a shifted index: after `addStart nil; addStop stopA; addStart startB`
the start at index 0 is `startB` while the stop at index 0 is `stopA`. -/
theorem addStart_nil_ignored :
    (∀ (m : MicroReg), m.addStart none = m ∧ m.addStop none = m) ∧
    ((micro0.addStart none).addStop (some 5)).startFuncs = [] ∧
    ((micro0.addStart none).addStop (some 5)).stopFuncs = [5] ∧
    (((micro0.addStart none).addStop (some 5)).addStart (some 7)).startFuncs = [7] ∧
    (((micro0.addStart none).addStop (some 5)).addStart (some 7)).stopFuncs = [5] :=
  ⟨fun m => ⟨rfl, rfl⟩, rfl, rfl, rfl, rfl⟩

end Aqm
